import Mathlib

/-!
Verification of the MeetingNote application.

Shallow embedding of the three source components:
  - `src/App.tsx`            : the coordinator owning the note collection
                               (`handleSaveNote`, `handleDeleteNote`,
                               `handleToggleFavorite`, startup load / persist),
  - `src/components/NoteList.tsx`   : filter, sort, export,
  - `src/components/NoteEditor.tsx` : draft template, submit guard,
                               `formatContent`, speech-transcript cleaning.

Modelling conventions:
  - `Date` instants are `Nat`; platform functions that render dates
    (`toLocaleString`, `toISOString`, locale date formatting) and the platform
    collation (`localeCompare`) are passed as explicit function parameters.
  - `crypto.randomUUID()` is a `freshId : String` parameter, `new Date()` a
    `now : Nat` parameter, `window.confirm` a `confirmed : Bool` parameter.
  - JavaScript string primitives that the code uses (`split('.')`, `trim()`,
    `toLowerCase()` + `includes`) are re-implemented structurally over
    `List Char` / char codes so that every definition evaluates by kernel
    reduction.  Case folding and whitespace are the ASCII fragments.
-/

/-- The `SortOption` union type from `types.ts`. -/
inductive SortOption where
  | date
  | title
  | favorite
deriving DecidableEq

/-- The `Note` record from `types.ts`.  The two `Date` fields are abstract
instants (`Nat`). -/
structure Note where
  id : String
  title : String
  content : String
  createdAt : Nat
  updatedAt : Nat
  favorite : Bool
  tags : List String
deriving DecidableEq

/-- The `NoteFormData` record from `types.ts`: the editor draft. -/
structure NoteFormData where
  title : String
  content : String
  tags : List String
deriving DecidableEq

/-- JavaScript `split` with a one-character separator, over the character
list: `"" → [""]`, separators at the ends produce empty segments. -/
def splitOnChar (sep : Char) : List Char → List (List Char)
  | [] => [[]]
  | c :: rest =>
    match splitOnChar sep rest with
    | [] => [[c]]
    | cur :: parts => if c == sep then [] :: cur :: parts else (c :: cur) :: parts

/-- JavaScript `s.split(sep)` for a one-character separator string. -/
def jsSplit (sep : Char) (s : String) : List String :=
  (splitOnChar sep s.data).map String.mk

/-- Drop leading whitespace characters. -/
def dropWs : List Char → List Char
  | [] => []
  | c :: rest => if c.isWhitespace then dropWs rest else c :: rest

/-- JavaScript `s.trim()`: strip whitespace from both ends (ASCII whitespace
fragment). -/
def jsTrim (s : String) : String :=
  String.mk ((dropWs ((dropWs s.data).reverse)).reverse)

/-- ASCII case folding of one char code, as `toLowerCase` acts on ASCII. -/
def lowerCode (n : Nat) : Nat := if 65 ≤ n ∧ n ≤ 90 then n + 32 else n

/-- Char codes of a string after `toLowerCase` (ASCII fragment). -/
def lowerCodes (s : String) : List Nat := s.data.map (fun c => lowerCode c.toNat)

/-- Does the first code list start the second? -/
def prefixOfCodes : List Nat → List Nat → Bool
  | [], _ => true
  | _ :: _, [] => false
  | a :: as, b :: bs => a == b && prefixOfCodes as bs

/-- JavaScript `hay.includes(pat)` on code lists: `pat` occurs contiguously
inside `hay` (the empty pattern always matches). -/
def includesCodes (pat : List Nat) : List Nat → Bool
  | [] => pat.isEmpty
  | b :: bs => prefixOfCodes pat (b :: bs) || includesCodes pat bs

/-- App.tsx `handleSaveNote`.  With a selection, merges the draft fields into
the matching record and stamps `updatedAt`; otherwise prepends a brand new
record whose tags are `'meeting'` followed by the draft tags.  No emptiness
check of any kind is performed here. -/
def handleSaveNote (selectedNote : Option Note) (data : NoteFormData)
    (freshId : String) (now : Nat) (notes : List Note) : List Note :=
  match selectedNote with
  | some sel =>
      notes.map (fun note =>
        if note.id = sel.id then
          { note with title := data.title, content := data.content,
                      tags := data.tags, updatedAt := now }
        else note)
  | none =>
      { id := freshId, title := data.title, content := data.content,
        createdAt := now, updatedAt := now, favorite := false,
        tags := "meeting" :: data.tags } :: notes

/-- App.tsx `handleDeleteNote`: removal happens only when `window.confirm`
(the `confirmed` parameter) approved it. -/
def handleDeleteNote (confirmed : Bool) (id : String) (notes : List Note) : List Note :=
  if confirmed then notes.filter (fun note => note.id != id) else notes

/-- App.tsx `handleToggleFavorite`: flips the boolean of every record whose id
matches; nothing else changes, no timestamp update. -/
def handleToggleFavorite (id : String) (notes : List Note) : List Note :=
  notes.map (fun note =>
    if note.id = id then { note with favorite := !note.favorite } else note)

/-- NoteEditor.tsx selection-change effect, no-selection branch: the fresh
draft template.  `today` models the long locale date string. -/
def freshDraft (today : String) : NoteFormData :=
  { title := "Meeting Notes - " ++ today, content := "", tags := ["meeting"] }

/-- NoteEditor.tsx `handleSubmit`, restricted to its effect on the stored
collection: a draft whose trimmed title or trimmed content is empty is
rejected before `onSave` is ever invoked; otherwise the save contract runs. -/
def handleSubmit (selectedNote : Option Note) (data : NoteFormData)
    (freshId : String) (now : Nat) (notes : List Note) : List Note :=
  if jsTrim data.title = "" ∨ jsTrim data.content = "" then notes
  else handleSaveNote selectedNote data freshId now notes

/-- NoteEditor.tsx `formatContent` (content-field blur handler): split on
periods, trim, drop empties, rejoin with `". "`, and append one final
period (`cleanContent + '.'` in the source). -/
def formatContent (content : String) : String :=
  String.intercalate ". "
    (((jsSplit '.' content).map jsTrim).filter (fun s => s != "")) ++ "."

/-- The formatting pipeline exactly as the spec words it (section 4.3):
split on periods, trim each segment, drop empty segments, rejoin with
`". "` — and nothing else. -/
def formatContentSpec (content : String) : String :=
  String.intercalate ". "
    (((jsSplit '.' content).map jsTrim).filter (fun s => s != ""))

/-- Index plumbing of a JavaScript `filter((s, i, arr) => ...)` callback:
pair every element with its position. -/
def withIndex (start : Nat) : List String → List (Nat × String)
  | [] => []
  | x :: xs => (start, x) :: withIndex (start + 1) xs

/-- JavaScript `arr.indexOf(a)`: position of the first occurrence.  JS yields
-1 when `a` is absent; this model yields `arr.length`, and the two agree on
every comparison `indexOf(s) === i` made below, because there `i` is always a
valid position. -/
def jsIndexOf (a : String) : List String → Nat
  | [] => 0
  | x :: xs => if x == a then 0 else jsIndexOf a xs + 1

/-- NoteEditor.tsx `recognition.onresult` cleanup of the joined transcript:
split on periods, trim, keep a sentence only when it is non-empty and its
index equals `indexOf` of itself in the trimmed array (first occurrence),
rejoin with `". "`. -/
def cleanedTranscript (transcript : String) : String :=
  String.intercalate ". "
    (((withIndex 0 ((jsSplit '.' transcript).map jsTrim)).filter
        (fun p => p.2 != "" &&
          (jsIndexOf p.2 ((jsSplit '.' transcript).map jsTrim) == p.1))).map
      Prod.snd)

/-- NoteEditor.tsx `recognition.onresult`: all captured result segments are
joined with a space, cleaned, and the result replaces the draft content
wholesale. -/
def onresult (segments : List String) (draft : NoteFormData) : NoteFormData :=
  { draft with content := cleanedTranscript (String.intercalate " " segments) }

/-- First-occurrence dedup as the spec words it: walk the list keeping a
sentence only when it has not been seen before. -/
def dedupFirst (seen : List String) : List String → List String
  | [] => []
  | x :: xs => if seen.contains x then dedupFirst seen xs else x :: dedupFirst (x :: seen) xs

/-- The transcript pipeline exactly as the spec words it (section 4.3):
join the segments, split on periods, trim, drop empties, dedup by exact
sentence text keeping first occurrences in order, rejoin with `". "`. -/
def transcriptSpec (segments : List String) : String :=
  String.intercalate ". "
    (dedupFirst []
      (((jsSplit '.' (String.intercalate " " segments)).map jsTrim).filter
        (fun s => s != "")))

/-- NoteList.tsx search half of the filter predicate: case-insensitive
substring match against title, content, or any tag. -/
def matchesSearch (searchTerm : String) (note : Note) : Bool :=
  includesCodes (lowerCodes searchTerm) (lowerCodes note.title) ||
  includesCodes (lowerCodes searchTerm) (lowerCodes note.content) ||
  note.tags.any (fun tag => includesCodes (lowerCodes searchTerm) (lowerCodes tag))

/-- NoteList.tsx tag half of the filter predicate: `none` models the `null`
selection (`!selectedTag ||` in the source), otherwise exact membership. -/
def matchesTag (selectedTag : Option String) (note : Note) : Bool :=
  match selectedTag with
  | none => true
  | some t => note.tags.contains t

/-- NoteList.tsx `filteredNotes`: a note passes when it matches the search
term and the selected tag. -/
def filteredNotes (searchTerm : String) (selectedTag : Option String)
    (notes : List Note) : List Note :=
  notes.filter (fun note => matchesSearch searchTerm note && matchesTag selectedTag note)

/-- NoteList.tsx comparator switch inside `sortedNotes`; `cmp` stands for the
platform `localeCompare` collation. -/
def noteComparator (cmp : String → String → Int) (k : SortOption) (a b : Note) : Int :=
  match k with
  | .title => cmp a.title b.title
  | .favorite => (if b.favorite then 1 else 0) - (if a.favorite then 1 else 0)
  | .date => (b.updatedAt : Int) - (a.updatedAt : Int)

/-- Order produced by the comparator: `a` may precede `b` when the comparator
is at most zero. -/
def sortLe (cmp : String → String → Int) (k : SortOption) (a b : Note) : Prop :=
  noteComparator cmp k a b ≤ 0

instance (cmp : String → String → Int) (k : SortOption) : DecidableRel (sortLe cmp k) :=
  fun a b => Int.decLe (noteComparator cmp k a b) 0

/-- NoteList.tsx `sortedNotes`: the filtered list sorted by the comparator.
JavaScript `Array.prototype.sort` is stable and, for a consistent comparator,
yields a sequence sorted by it; it is modelled as stable insertion sort. -/
def sortedNotes (cmp : String → String → Int) (k : SortOption) (l : List Note) : List Note :=
  List.insertionSort (sortLe cmp k) l

/-- Plain code-point comparison of char-code lists: the lexicographic rule. -/
def codeCompare : List Nat → List Nat → Int
  | [], [] => 0
  | [], _ :: _ => -1
  | _ :: _, [] => 1
  | a :: as, b :: bs => if a < b then -1 else if b < a then 1 else codeCompare as bs

/-- Code-point lexicographic string comparison: one concrete comparison rule
that can instantiate the collation parameter. -/
def strCompare (a b : String) : Int :=
  codeCompare (a.data.map Char.toNat) (b.data.map Char.toNat)

/-- NoteList.tsx `exportNote` Markdown template; `loc` models
`Date.prototype.toLocaleString`. -/
def exportNote (loc : Nat → String) (note : Note) : String :=
  "# " ++ note.title ++ "\n\n" ++ note.content ++ "\n\n## Tags\n" ++
    String.intercalate "\n" (note.tags.map (fun tag => "- " ++ tag)) ++
    "\n\nCreated: " ++ loc note.createdAt ++ "\nLast Updated: " ++ loc note.updatedAt

/-- NoteList.tsx `exportAllNotes` payload: the per-note template literal in
the source is character-identical to the one in `exportNote` with
`"\n\n---\n\n"` appended to every block, and the blocks are joined with
`join('\n')`. -/
def exportAllMarkdown (loc : Nat → String) (notes : List Note) : String :=
  String.intercalate "\n" (notes.map (fun note =>
    "# " ++ note.title ++ "\n\n" ++ note.content ++ "\n\n## Tags\n" ++
      String.intercalate "\n" (note.tags.map (fun tag => "- " ++ tag)) ++
      "\n\nCreated: " ++ loc note.createdAt ++ "\nLast Updated: " ++ loc note.updatedAt ++
      "\n\n---\n\n"))

/-- NoteList.tsx `exportAllNotes` download name; `isoDate` models
`new Date().toISOString().split('T')[0]`. -/
def exportAllFilename (isoDate : String) : String :=
  "meeting_notes_" ++ isoDate ++ ".md"

/-- A runtime timestamp field: either a live date value or a plain string. -/
inductive TimeVal where
  | date : Nat → TimeVal
  | str : String → TimeVal
deriving DecidableEq

/-- Is this runtime value a date value (as opposed to a string)? -/
def TimeVal.isDate : TimeVal → Bool
  | .date _ => true
  | .str _ => false

/-- A note record as it exists at runtime in App state, where each timestamp
field may hold either a date value or a serialized string. -/
structure RNote where
  id : String
  title : String
  content : String
  createdAt : TimeVal
  updatedAt : TimeVal
  favorite : Bool
  tags : List String
deriving DecidableEq

/-- Effect of `JSON.stringify` followed by `JSON.parse` on one timestamp
field: a date value serializes to its ISO string (`iso`) and parses back as a
plain string; a string round-trips unchanged.  Nothing in App.tsx revives
dates. -/
def jsonRoundTripTime (iso : Nat → String) : TimeVal → TimeVal
  | .date t => .str (iso t)
  | .str s => .str s

/-- JSON round-trip of one note: strings, booleans and string lists come back
unchanged, timestamp fields go through `jsonRoundTripTime`. -/
def jsonRoundTripNote (iso : Nat → String) (n : RNote) : RNote :=
  { n with createdAt := jsonRoundTripTime iso n.createdAt,
           updatedAt := jsonRoundTripTime iso n.updatedAt }

/-- App.tsx startup load: `JSON.parse(savedNotes)` where the persistence slot
holds `JSON.stringify` of the collection that was last persisted by the
write-on-every-change effect. -/
def loadNotes (iso : Nat → String) (persisted : List RNote) : List RNote :=
  persisted.map (jsonRoundTripNote iso)

/-! Shared helper lemmas. -/

theorem list_map_eq_self {α : Type} {l : List α} {f : α → α}
    (h : ∀ a ∈ l, f a = a) : l.map f = l :=
  (List.map_congr_left h).trans (List.map_id l)

theorem beq_swap (a b : String) : (a == b) = (b == a) := by
  by_cases h : a = b
  · subst h; rfl
  · rw [beq_eq_false_iff_ne.mpr h, beq_eq_false_iff_ne.mpr (Ne.symm h)]

theorem contains_cons_eq (x a : String) (l : List String) :
    (x :: l).contains a = ((a == x) || l.contains a) := by
  cases h : a == x <;> simp [List.contains, List.elem, h]

theorem contains_append_singleton (pre : List String) (x a : String) :
    (pre ++ [x]).contains a = (x :: pre).contains a := by
  induction pre with
  | nil => rfl
  | cons y ys ih =>
      rw [List.cons_append, contains_cons_eq, ih, contains_cons_eq, contains_cons_eq,
        contains_cons_eq]
      cases a == x <;> cases a == y <;> cases List.contains ys a <;> rfl

theorem includesCodes_nil (hay : List Nat) : includesCodes [] hay = true := by
  cases hay <;> simp [includesCodes, prefixOfCodes, List.isEmpty]

theorem codeCompare_swap (a b : List Nat) : codeCompare b a = -codeCompare a b := by
  induction a generalizing b with
  | nil => cases b <;> simp [codeCompare]
  | cons x as ih =>
      cases b with
      | nil => simp [codeCompare]
      | cons y bs =>
          by_cases h1 : x < y
          · have h2 : ¬ y < x := by omega
            simp [codeCompare, h1, h2]
          · by_cases h2 : y < x
            · simp [codeCompare, h1, h2]
            · simp [codeCompare, h1, h2, ih bs]

theorem codeCompare_le_trans {a b c : List Nat}
    (hab : codeCompare a b ≤ 0) (hbc : codeCompare b c ≤ 0) :
    codeCompare a c ≤ 0 := by
  induction a generalizing b c with
  | nil => cases c <;> simp [codeCompare]
  | cons x as ih =>
      cases b with
      | nil => simp [codeCompare] at hab
      | cons y bs =>
          cases c with
          | nil => simp [codeCompare] at hbc
          | cons z cs =>
              simp only [codeCompare] at hab hbc ⊢
              by_cases hxy : x < y
              · by_cases hyz : y < z
                · have hxz : x < z := by omega
                  simp [hxz]
                · by_cases hzy : z < y
                  · simp [hyz, hzy] at hbc
                  · have hxz : x < z := by omega
                    simp [hxz]
              · by_cases hyx : y < x
                · simp [hxy, hyx] at hab
                · have hxy' : x = y := by omega
                  subst hxy'
                  by_cases hyz : x < z
                  · simp [hyz]
                  · by_cases hzy : z < x
                    · simp [hyz, hzy] at hbc
                    · simp [hxy, hyx] at hab
                      simp [hyz, hzy] at hbc ⊢
                      exact ih hab hbc

theorem strCompare_total (a b : String) : strCompare a b ≤ 0 ∨ strCompare b a ≤ 0 := by
  unfold strCompare
  rcases le_or_lt (codeCompare (a.data.map Char.toNat) (b.data.map Char.toNat)) 0 with h | h
  · exact Or.inl h
  · right
    rw [codeCompare_swap]
    omega

theorem strCompare_le_trans (a b c : String)
    (hab : strCompare a b ≤ 0) (hbc : strCompare b c ≤ 0) : strCompare a c ≤ 0 :=
  codeCompare_le_trans hab hbc

theorem jsIndexOf_append_of_not_mem (a : String) (pre l : List String)
    (h : pre.contains a = false) :
    jsIndexOf a (pre ++ l) = pre.length + jsIndexOf a l := by
  induction pre with
  | nil => simp [jsIndexOf]
  | cons x xs ih =>
      rw [contains_cons_eq, Bool.or_eq_false_iff] at h
      have hx : (x == a) = false := by rw [beq_swap]; exact h.1
      rw [List.cons_append]
      rw [show jsIndexOf a (x :: (xs ++ l)) = jsIndexOf a (xs ++ l) + 1 by
        simp [jsIndexOf, hx]]
      rw [ih h.2, List.length_cons]
      omega

theorem jsIndexOf_append_lt (a : String) (pre l : List String)
    (h : pre.contains a = true) :
    jsIndexOf a (pre ++ l) < pre.length := by
  induction pre with
  | nil => simp [List.contains, List.elem] at h
  | cons x xs ih =>
      rw [contains_cons_eq] at h
      rw [List.cons_append]
      by_cases hx : (x == a) = true
      · simp [jsIndexOf, hx]
      · have hx' : (x == a) = false := by
          cases hval : x == a
          · rfl
          · exact absurd hval hx
        rw [beq_swap] at hx'
        rw [hx', Bool.false_or] at h
        rw [show jsIndexOf a (x :: (xs ++ l)) = jsIndexOf a (xs ++ l) + 1 by
          rw [beq_swap] at hx'
          simp [jsIndexOf, hx']]
        rw [List.length_cons]
        have := ih h
        omega

/-- First-occurrence filter written as a single pass with an accumulator of
everything already walked over. -/
def keepNew (seen : List String) : List String → List String
  | [] => []
  | x :: xs =>
      if x != "" && !(seen.contains x) then x :: keepNew (x :: seen) xs
      else keepNew (x :: seen) xs

theorem keepNew_congr (l : List String) : ∀ (s t : List String),
    (∀ a, s.contains a = t.contains a) → keepNew s l = keepNew t l := by
  induction l with
  | nil => intro s t _; rfl
  | cons x xs ih =>
      intro s t h
      have h' : ∀ a, (x :: s).contains a = (x :: t).contains a := by
        intro a
        rw [contains_cons_eq, contains_cons_eq, h a]
      simp only [keepNew, h x]
      cases x != "" && !(t.contains x) <;> simp [ih _ _ h']

theorem js_dedup_go (l : List String) : ∀ pre : List String,
    ((withIndex pre.length l).filter
        (fun p => p.2 != "" && (jsIndexOf p.2 (pre ++ l) == p.1))).map Prod.snd
      = keepNew pre l := by
  induction l with
  | nil => intro pre; simp [withIndex, keepNew]
  | cons x xs ih =>
      intro pre
      have hidx : (jsIndexOf x (pre ++ x :: xs) == pre.length) = !pre.contains x := by
        cases h : pre.contains x
        · rw [jsIndexOf_append_of_not_mem x pre (x :: xs) h]
          simp [jsIndexOf]
        · have hlt := jsIndexOf_append_lt x pre (x :: xs) h
          simp only [Bool.not_true]
          rw [beq_eq_false_iff_ne]
          omega
      have hseen : keepNew (pre ++ [x]) xs = keepNew (x :: pre) xs :=
        keepNew_congr xs _ _ (fun a => contains_append_singleton pre x a)
      simp only [withIndex, List.filter_cons]
      simp only [hidx]
      rw [List.append_cons pre x xs]
      rw [show pre.length + 1 = (pre ++ [x]).length by simp]
      by_cases hcond : (x != "" && !pre.contains x) = true
      · rw [if_pos hcond, List.map_cons, ih (pre ++ [x]), hseen, keepNew, if_pos hcond]
      · rw [if_neg hcond, ih (pre ++ [x]), hseen, keepNew, if_neg hcond]

theorem keepNew_eq_dedupFirst (l : List String) : ∀ (s t : List String),
    (∀ a : String, a ≠ "" → s.contains a = t.contains a) →
    keepNew s l = dedupFirst t (l.filter (fun s => s != "")) := by
  induction l with
  | nil => intro s t _; rfl
  | cons x xs ih =>
      intro s t h
      by_cases hx : x = ""
      · subst hx
        have h' : ∀ a : String, a ≠ "" → ("" :: s).contains a = t.contains a := by
          intro a ha
          rw [contains_cons_eq, beq_eq_false_iff_ne.mpr ha, Bool.false_or]
          exact h a ha
        simp only [keepNew, List.filter_cons, bne_self_eq_false, Bool.false_and,
          Bool.false_eq_true, if_false]
        exact ih _ _ h'
      · have hxb : (x != "") = true := bne_iff_ne.mpr hx
        have hcontains : s.contains x = t.contains x := h x hx
        simp only [keepNew, List.filter_cons, hxb, Bool.true_and, if_true, dedupFirst,
          hcontains]
        cases ht : t.contains x
        · have h' : ∀ a : String, a ≠ "" → (x :: s).contains a = (x :: t).contains a := by
            intro a ha
            rw [contains_cons_eq, contains_cons_eq, h a ha]
          simp only [Bool.not_false, if_true, dedupFirst, ht, Bool.false_eq_true, if_false]
          rw [ih _ _ h']
        · have h' : ∀ a : String, a ≠ "" → (x :: s).contains a = t.contains a := by
            intro a ha
            rw [contains_cons_eq, h a ha]
            by_cases hax : a = x
            · subst hax
              rw [beq_self_eq_true, Bool.true_or, ht]
            · rw [beq_eq_false_iff_ne.mpr hax, Bool.false_or]
          simp only [Bool.not_true, if_false, dedupFirst, ht, if_true, Bool.false_eq_true]
          rw [ih _ _ h']

theorem cleanedTranscript_eq_spec (segments : List String) :
    cleanedTranscript (String.intercalate " " segments) = transcriptSpec segments := by
  unfold cleanedTranscript transcriptSpec
  have h1 := js_dedup_go ((jsSplit '.' (String.intercalate " " segments)).map jsTrim) []
  simp only [List.nil_append, List.length_nil] at h1
  rw [h1, keepNew_eq_dedupFirst _ [] [] (fun a _ => rfl)]

/-! Claim theorems. -/

/-- C1 (amended): composing the editor's fresh draft template with the create
path of `handleSaveNote` on an empty collection — title edited to "Standup",
content to "We shipped X." — yields exactly one entry with favorite `false`,
but its tag sequence is `["meeting", "meeting"]`: the template already
carries the `'meeting'` tag and the create path unconditionally prepends
another one. -/
theorem save_fresh_draft_creates_double_meeting (today freshId : String) (now : Nat) :
    handleSaveNote none
        { title := "Standup", content := "We shipped X.",
          tags := (freshDraft today).tags } freshId now []
      = [{ id := freshId, title := "Standup", content := "We shipped X.",
           createdAt := now, updatedAt := now, favorite := false,
           tags := ["meeting", "meeting"] }] := rfl

/-- C1 counterexample: at the concrete scenario inputs the created entry's
tags are not `["meeting"]`. -/
theorem save_standup_tags_not_single_meeting :
    (handleSaveNote none
        { title := "Standup", content := "We shipped X.",
          tags := (freshDraft "Monday, January 1, 2026").tags } "id-1" 0 []).map Note.tags
      ≠ [["meeting"]] := by decide

/-- C2 (amended): the emptiness guard lives in the editor's `handleSubmit`,
not in the save operation itself: a draft whose trimmed title or trimmed
content is empty is rejected before save is ever invoked, so submitting it
leaves the collection unchanged, whether or not a note is selected. -/
theorem submit_rejects_blank_draft (selectedNote : Option Note) (data : NoteFormData)
    (freshId : String) (now : Nat) (notes : List Note)
    (h : jsTrim data.title = "" ∨ jsTrim data.content = "") :
    handleSubmit selectedNote data freshId now notes = notes := by
  unfold handleSubmit
  exact if_pos h

/-- C2 witness: a whitespace-only title is rejected by submit on the empty
collection. -/
theorem submit_rejects_blank_draft_check :
    (jsTrim "  " = "" ∨ jsTrim "x" = "") ∧
    handleSubmit none { title := "  ", content := "x", tags := [] } "id-1" 0 [] = [] :=
  ⟨Or.inl (by decide),
   submit_rejects_blank_draft none { title := "  ", content := "x", tags := [] }
     "id-1" 0 [] (Or.inl (by decide))⟩

/-- C2 counterexample: `handleSaveNote` itself, invoked with empty title and
empty content and no selection, does mutate the collection — it performs no
validation. -/
theorem saveNote_mutates_on_empty_draft :
    handleSaveNote none { title := "", content := "", tags := [] } "id-1" 0 []
      ≠ ([] : List Note) := by decide

/-- C3 (amended): `formatContent` is the split-on-periods / trim / drop-empties
/ rejoin-with-". " pipeline of the spec followed by one extra appended period;
in particular empty content becomes ".". -/
theorem formatContent_appends_final_period (content : String) :
    formatContent content = formatContentSpec content ++ "." ∧ formatContent "" = "." :=
  ⟨rfl, by decide⟩

/-- C3 counterexample: the extra period makes the result differ from the plain
rejoin the claim describes. -/
theorem formatContent_not_plain_rejoin :
    formatContent "Hi. Bye." ≠ formatContentSpec "Hi. Bye." := by decide

/-- C4 (amended): the exportAll payload is the notes' Markdown blocks — each
being the `exportOne` template with a horizontal-rule trailer `"\n\n---\n\n"`
appended (a terminator on every block, the last included) — joined with a
newline; the delivered file is named `meeting_notes_<ISO date>.md`. -/
theorem exportAll_blocks_have_rule_trailer (loc : Nat → String) (notes : List Note)
    (isoDate : String) :
    exportAllMarkdown loc notes
      = String.intercalate "\n"
          (notes.map (fun note => exportNote loc note ++ "\n\n---\n\n")) ∧
    exportAllFilename isoDate = "meeting_notes_" ++ isoDate ++ ".md" :=
  ⟨rfl, rfl⟩

/-- C4 counterexample: with a single visible note there are no consecutive
blocks, so a rule used only as a separator would produce the bare block; the
code's payload instead carries the trailing rule. -/
theorem exportAll_single_note_not_bare_block :
    exportAllMarkdown (fun _ => "T")
        [{ id := "i", title := "t", content := "c", createdAt := 0, updatedAt := 0,
           favorite := false, tags := ["meeting"] }]
      = exportNote (fun _ => "T")
          { id := "i", title := "t", content := "c", createdAt := 0, updatedAt := 0,
            favorite := false, tags := ["meeting"] } ++ "\n\n---\n\n" ∧
    exportAllMarkdown (fun _ => "T")
        [{ id := "i", title := "t", content := "c", createdAt := 0, updatedAt := 0,
           favorite := false, tags := ["meeting"] }]
      ≠ exportNote (fun _ => "T")
          { id := "i", title := "t", content := "c", createdAt := 0, updatedAt := 0,
            favorite := false, tags := ["meeting"] } := by
  exact ⟨by decide, by decide⟩

/-- C5 (confirmed): with sort key `title` the visible notes are permuted into
a sequence ascending under the title comparison rule — for every consistent
collation `cmp` (standing for the platform `localeCompare`); and under the
plain code-point lexicographic rule `strCompare` the triple titled
`["Banana", "apple", "Cherry"]` sorts to `["Banana", "Cherry", "apple"]`
(uppercase before lowercase, as that rule dictates). -/
theorem sortedNotes_title_ascending (cmp : String → String → Int) (notes : List Note)
    (htot : ∀ a b : String, cmp a b ≤ 0 ∨ cmp b a ≤ 0)
    (htrans : ∀ a b c : String, cmp a b ≤ 0 → cmp b c ≤ 0 → cmp a c ≤ 0) :
    List.Perm (sortedNotes cmp SortOption.title notes) notes ∧
    List.Sorted (fun a b : Note => cmp a.title b.title ≤ 0)
      (sortedNotes cmp SortOption.title notes) ∧
    (sortedNotes strCompare SortOption.title
        [{ id := "1", title := "Banana", content := "", createdAt := 0, updatedAt := 0,
           favorite := false, tags := [] },
         { id := "2", title := "apple", content := "", createdAt := 0, updatedAt := 0,
           favorite := false, tags := [] },
         { id := "3", title := "Cherry", content := "", createdAt := 0, updatedAt := 0,
           favorite := false, tags := [] }]).map Note.title
      = ["Banana", "Cherry", "apple"] := by
  refine ⟨List.perm_insertionSort _ notes, ?_, by decide⟩
  have hs : List.Sorted (sortLe cmp SortOption.title) (sortedNotes cmp SortOption.title notes) := by
    haveI : IsTotal Note (sortLe cmp SortOption.title) := ⟨fun a b => htot a.title b.title⟩
    haveI : IsTrans Note (sortLe cmp SortOption.title) :=
      ⟨fun a b c hab hbc => htrans a.title b.title c.title hab hbc⟩
    exact List.sorted_insertionSort _ notes
  exact hs

/-- C5 witness: the code-point comparison rule is consistent, so the theorem
applies to it at the concrete triple. -/
theorem sortedNotes_title_ascending_check :
    (∀ a b : String, strCompare a b ≤ 0 ∨ strCompare b a ≤ 0) ∧
    (∀ a b c : String, strCompare a b ≤ 0 → strCompare b c ≤ 0 → strCompare a c ≤ 0) ∧
    (List.Perm (sortedNotes strCompare SortOption.title
        [{ id := "1", title := "Banana", content := "", createdAt := 0, updatedAt := 0,
           favorite := false, tags := [] },
         { id := "2", title := "apple", content := "", createdAt := 0, updatedAt := 0,
           favorite := false, tags := [] },
         { id := "3", title := "Cherry", content := "", createdAt := 0, updatedAt := 0,
           favorite := false, tags := [] }])
        [{ id := "1", title := "Banana", content := "", createdAt := 0, updatedAt := 0,
           favorite := false, tags := [] },
         { id := "2", title := "apple", content := "", createdAt := 0, updatedAt := 0,
           favorite := false, tags := [] },
         { id := "3", title := "Cherry", content := "", createdAt := 0, updatedAt := 0,
           favorite := false, tags := [] }] ∧
      List.Sorted (fun a b : Note => strCompare a.title b.title ≤ 0)
        (sortedNotes strCompare SortOption.title
          [{ id := "1", title := "Banana", content := "", createdAt := 0, updatedAt := 0,
             favorite := false, tags := [] },
           { id := "2", title := "apple", content := "", createdAt := 0, updatedAt := 0,
             favorite := false, tags := [] },
           { id := "3", title := "Cherry", content := "", createdAt := 0, updatedAt := 0,
             favorite := false, tags := [] }]) ∧
      (sortedNotes strCompare SortOption.title
          [{ id := "1", title := "Banana", content := "", createdAt := 0, updatedAt := 0,
             favorite := false, tags := [] },
           { id := "2", title := "apple", content := "", createdAt := 0, updatedAt := 0,
             favorite := false, tags := [] },
           { id := "3", title := "Cherry", content := "", createdAt := 0, updatedAt := 0,
             favorite := false, tags := [] }]).map Note.title
        = ["Banana", "Cherry", "apple"]) :=
  ⟨strCompare_total, strCompare_le_trans,
   sortedNotes_title_ascending strCompare
     [{ id := "1", title := "Banana", content := "", createdAt := 0, updatedAt := 0,
        favorite := false, tags := [] },
      { id := "2", title := "apple", content := "", createdAt := 0, updatedAt := 0,
        favorite := false, tags := [] },
      { id := "3", title := "Cherry", content := "", createdAt := 0, updatedAt := 0,
        favorite := false, tags := [] }] strCompare_total strCompare_le_trans⟩

theorem jsonRoundTripTime_not_date (iso : Nat → String) (v : TimeVal) :
    (jsonRoundTripTime iso v).isDate = false := by
  cases v <;> rfl

/-- C6 (amended): the startup load performs no date revival: it yields notes
whose `createdAt` and `updatedAt` are the serialized date strings of the
saved timestamps — never date values — while every other field round-trips
unchanged.  Consumers re-parse at each use site instead. -/
theorem load_keeps_timestamps_as_strings (iso : Nat → String) (notes : List RNote)
    (i : Nat) (h1 : i < notes.length) (h2 : i < (loadNotes iso notes).length) :
    (loadNotes iso notes).length = notes.length ∧
    ((loadNotes iso notes)[i].createdAt).isDate = false ∧
    ((loadNotes iso notes)[i].updatedAt).isDate = false ∧
    (loadNotes iso notes)[i].id = notes[i].id ∧
    (loadNotes iso notes)[i].title = notes[i].title ∧
    (loadNotes iso notes)[i].content = notes[i].content ∧
    (loadNotes iso notes)[i].favorite = notes[i].favorite ∧
    (loadNotes iso notes)[i].tags = notes[i].tags ∧
    (loadNotes iso notes)[i].createdAt = jsonRoundTripTime iso notes[i].createdAt ∧
    (loadNotes iso notes)[i].updatedAt = jsonRoundTripTime iso notes[i].updatedAt := by
  have hget : (loadNotes iso notes)[i] = jsonRoundTripNote iso notes[i] := by
    simp [loadNotes]
  rw [hget]
  exact ⟨by simp [loadNotes], jsonRoundTripTime_not_date iso _,
    jsonRoundTripTime_not_date iso _, rfl, rfl, rfl, rfl, rfl, rfl, rfl⟩

/-- C6 witness: a one-note collection whose timestamps are date value 5,
loaded with the decimal rendering as the ISO serialization. -/
theorem load_keeps_timestamps_as_strings_check :
    ((0 : Nat) < 1 ∧
     (0 : Nat) < (loadNotes (fun t => toString t)
        [{ id := "i", title := "t", content := "c", createdAt := TimeVal.date 5,
           updatedAt := TimeVal.date 5, favorite := false, tags := ["meeting"] }]).length) ∧
    ((loadNotes (fun t => toString t)
        [{ id := "i", title := "t", content := "c", createdAt := TimeVal.date 5,
           updatedAt := TimeVal.date 5, favorite := false,
           tags := ["meeting"] }]).length = 1 ∧
     ((loadNotes (fun t => toString t)
        [{ id := "i", title := "t", content := "c", createdAt := TimeVal.date 5,
           updatedAt := TimeVal.date 5, favorite := false,
           tags := ["meeting"] }])[0].createdAt).isDate = false) :=
  ⟨⟨by decide, by decide⟩,
   (load_keeps_timestamps_as_strings (fun t => toString t)
      [{ id := "i", title := "t", content := "c", createdAt := TimeVal.date 5,
         updatedAt := TimeVal.date 5, favorite := false, tags := ["meeting"] }]
      0 (by decide) (by decide)).1,
   (load_keeps_timestamps_as_strings (fun t => toString t)
      [{ id := "i", title := "t", content := "c", createdAt := TimeVal.date 5,
         updatedAt := TimeVal.date 5, favorite := false, tags := ["meeting"] }]
      0 (by decide) (by decide)).2.1⟩

/-- C6 counterexample: loading a persisted note whose timestamps were date
values does not return it unchanged — the timestamps come back as strings. -/
theorem load_not_date_values :
    loadNotes (fun t => toString t)
        [{ id := "i", title := "t", content := "c", createdAt := TimeVal.date 5,
           updatedAt := TimeVal.date 5, favorite := false, tags := ["meeting"] }]
      ≠ [{ id := "i", title := "t", content := "c", createdAt := TimeVal.date 5,
           updatedAt := TimeVal.date 5, favorite := false, tags := ["meeting"] }] ∧
    (loadNotes (fun t => toString t)
        [{ id := "i", title := "t", content := "c", createdAt := TimeVal.date 5,
           updatedAt := TimeVal.date 5, favorite := false, tags := ["meeting"] }]).map
      RNote.createdAt = [TimeVal.str "5"] := by
  exact ⟨by decide, by decide⟩

/-- C7 (confirmed): toggling favorite twice with the same id restores the
collection exactly; one toggle preserves length, leaves every non-matching
note untouched, and changes only the favorite boolean of the matching note —
`updatedAt` and all other fields included. -/
theorem toggleFavorite_twice_identity (notes : List Note) (id : String) (i : Nat)
    (h1 : i < notes.length) (h2 : i < (handleToggleFavorite id notes).length) :
    handleToggleFavorite id (handleToggleFavorite id notes) = notes ∧
    (handleToggleFavorite id notes).length = notes.length ∧
    (notes[i].id ≠ id → (handleToggleFavorite id notes)[i] = notes[i]) ∧
    (notes[i].id = id →
      (handleToggleFavorite id notes)[i]
        = { notes[i] with favorite := !notes[i].favorite }) := by
  have hget : (handleToggleFavorite id notes)[i]
      = if notes[i].id = id then { notes[i] with favorite := !notes[i].favorite }
        else notes[i] := by
    simp [handleToggleFavorite]
  refine ⟨?_, by simp [handleToggleFavorite], ?_, ?_⟩
  · unfold handleToggleFavorite
    rw [List.map_map]
    apply list_map_eq_self
    intro n _
    simp only [Function.comp_apply]
    by_cases h : n.id = id
    · simp only [if_pos h, Bool.not_not]
    · simp only [if_neg h]
  · intro hne
    rw [hget, if_neg hne]
  · intro heq
    rw [hget, if_pos heq]

/-- C7 witness: one concrete note, matching id, index 0. -/
theorem toggleFavorite_twice_identity_check :
    ((0 : Nat) < 1 ∧
     (0 : Nat) < (handleToggleFavorite "a"
        [{ id := "a", title := "t", content := "c", createdAt := 3, updatedAt := 4,
           favorite := false, tags := ["meeting"] }]).length) ∧
    (handleToggleFavorite "a" (handleToggleFavorite "a"
        [{ id := "a", title := "t", content := "c", createdAt := 3, updatedAt := 4,
           favorite := false, tags := ["meeting"] }])
      = [{ id := "a", title := "t", content := "c", createdAt := 3, updatedAt := 4,
           favorite := false, tags := ["meeting"] }] ∧
     (handleToggleFavorite "a"
        [{ id := "a", title := "t", content := "c", createdAt := 3, updatedAt := 4,
           favorite := false, tags := ["meeting"] }]).length
       = ([{ id := "a", title := "t", content := "c", createdAt := 3, updatedAt := 4,
             favorite := false, tags := ["meeting"] }] : List Note).length ∧
     (([{ id := "a", title := "t", content := "c", createdAt := 3, updatedAt := 4,
          favorite := false, tags := ["meeting"] }] : List Note)[0].id ≠ "a" →
        (handleToggleFavorite "a"
          [{ id := "a", title := "t", content := "c", createdAt := 3, updatedAt := 4,
             favorite := false, tags := ["meeting"] }])[0]
          = ([{ id := "a", title := "t", content := "c", createdAt := 3, updatedAt := 4,
                favorite := false, tags := ["meeting"] }] : List Note)[0]) ∧
     (([{ id := "a", title := "t", content := "c", createdAt := 3, updatedAt := 4,
          favorite := false, tags := ["meeting"] }] : List Note)[0].id = "a" →
        (handleToggleFavorite "a"
          [{ id := "a", title := "t", content := "c", createdAt := 3, updatedAt := 4,
             favorite := false, tags := ["meeting"] }])[0]
          = { ([{ id := "a", title := "t", content := "c", createdAt := 3, updatedAt := 4,
                  favorite := false, tags := ["meeting"] }] : List Note)[0] with
              favorite := !([{ id := "a", title := "t", content := "c", createdAt := 3,
                               updatedAt := 4, favorite := false,
                               tags := ["meeting"] }] : List Note)[0].favorite })) :=
  ⟨⟨by decide, by decide⟩,
   toggleFavorite_twice_identity
     [{ id := "a", title := "t", content := "c", createdAt := 3, updatedAt := 4,
        favorite := false, tags := ["meeting"] }] "a" 0 (by decide) (by decide)⟩

theorem contains_eq_decide_mem (l : List String) (a : String) :
    l.contains a = decide (a ∈ l) := by
  simp [List.contains]

/-- C8 (amended): selecting a tag absent from every note makes the visible
sequence empty whatever the search term is; a note X carrying the selected
tag is visible provided it also satisfies the search predicate — which is
always the case when the search term is empty.  (With a non-empty,
non-matching search term, X is filtered out even when it carries the tag.) -/
theorem filteredNotes_tag_rules (notes : List Note) (searchTerm : String)
    (tag : String) (X : Note) :
    ((∀ n ∈ notes, tag ∉ n.tags) → filteredNotes searchTerm (some tag) notes = []) ∧
    (X ∈ notes → tag ∈ X.tags → matchesSearch searchTerm X = true →
      X ∈ filteredNotes searchTerm (some tag) notes) ∧
    matchesSearch "" X = true := by
  refine ⟨?_, ?_, ?_⟩
  · intro h
    unfold filteredNotes
    rw [List.filter_eq_nil_iff]
    intro n hn
    have htag : matchesTag (some tag) n = false := by
      show n.tags.contains tag = false
      rw [contains_eq_decide_mem, decide_eq_false (h n hn)]
    simp [htag]
  · intro hmem htag hsearch
    unfold filteredNotes
    rw [List.mem_filter]
    refine ⟨hmem, ?_⟩
    rw [hsearch, Bool.true_and]
    show X.tags.contains tag = true
    rw [contains_eq_decide_mem, decide_eq_true htag]
  · unfold matchesSearch
    rw [show lowerCodes "" = [] from rfl]
    simp [includesCodes_nil]

/-- C8 witness: an absent tag empties the view, and a carried tag plus the
empty search term keeps the note visible. -/
theorem filteredNotes_tag_rules_check :
    (∀ n ∈ ([{ id := "i", title := "a", content := "b", createdAt := 0, updatedAt := 0,
               favorite := false, tags := ["t"] }] : List Note), "x" ∉ n.tags) ∧
    filteredNotes "q" (some "x")
        [{ id := "i", title := "a", content := "b", createdAt := 0, updatedAt := 0,
           favorite := false, tags := ["t"] }] = [] ∧
    (({ id := "i", title := "a", content := "b", createdAt := 0, updatedAt := 0,
        favorite := false, tags := ["t"] } : Note)
        ∈ ([{ id := "i", title := "a", content := "b", createdAt := 0, updatedAt := 0,
              favorite := false, tags := ["t"] }] : List Note) ∧
     "t" ∈ ({ id := "i", title := "a", content := "b", createdAt := 0, updatedAt := 0,
              favorite := false, tags := ["t"] } : Note).tags ∧
     matchesSearch ""
       { id := "i", title := "a", content := "b", createdAt := 0,
         updatedAt := 0, favorite := false, tags := ["t"] } = true) ∧
    ({ id := "i", title := "a", content := "b", createdAt := 0, updatedAt := 0,
       favorite := false, tags := ["t"] } : Note)
      ∈ filteredNotes "" (some "t")
          [{ id := "i", title := "a", content := "b", createdAt := 0, updatedAt := 0,
             favorite := false, tags := ["t"] }] :=
  ⟨by decide,
   (filteredNotes_tag_rules
      [{ id := "i", title := "a", content := "b", createdAt := 0, updatedAt := 0,
         favorite := false, tags := ["t"] }] "q" "x"
      { id := "i", title := "a", content := "b", createdAt := 0, updatedAt := 0,
        favorite := false, tags := ["t"] }).1 (by decide),
   ⟨by decide, by decide, by decide⟩,
   (filteredNotes_tag_rules
      [{ id := "i", title := "a", content := "b", createdAt := 0, updatedAt := 0,
         favorite := false, tags := ["t"] }] "" "t"
      { id := "i", title := "a", content := "b", createdAt := 0, updatedAt := 0,
        favorite := false, tags := ["t"] }).2.1 (by decide) (by decide) (by decide)⟩

/-- C8 counterexample: a note carrying the selected tag is nevertheless
excluded when a non-empty search term matches neither its title, content nor
tags — visibility is not independent of the search term. -/
theorem tag_match_blocked_by_search :
    "t" ∈ ({ id := "i", title := "a", content := "b", createdAt := 0, updatedAt := 0,
             favorite := false, tags := ["t"] } : Note).tags ∧
    ({ id := "i", title := "a", content := "b", createdAt := 0, updatedAt := 0,
       favorite := false, tags := ["t"] } : Note)
      ∈ ([{ id := "i", title := "a", content := "b", createdAt := 0, updatedAt := 0,
            favorite := false, tags := ["t"] }] : List Note) ∧
    filteredNotes "zzz" (some "t")
        [{ id := "i", title := "a", content := "b", createdAt := 0, updatedAt := 0,
           favorite := false, tags := ["t"] }] = [] := by
  exact ⟨by decide, by decide, by decide⟩

/-- C9 (confirmed): on every increment the transcript handler replaces the
draft content wholesale (title and tags untouched) with the segments joined,
split on periods, trimmed, empties dropped, exact-duplicate sentences removed
keeping the first occurrence in order, rejoined with ". "; in particular the
increments `["Hello."]` and then `["Hello. World."]` produce "Hello" and
"Hello. World". -/
theorem onresult_replaces_content_dedup (segments : List String) (draft : NoteFormData) :
    onresult segments draft = { draft with content := transcriptSpec segments } ∧
    (onresult ["Hello."] draft).content = "Hello" ∧
    (onresult ["Hello. World."] draft).content = "Hello. World" := by
  refine ⟨?_, ?_, ?_⟩
  · unfold onresult
    rw [cleanedTranscript_eq_spec]
  · show cleanedTranscript (String.intercalate " " ["Hello."]) = "Hello"
    decide
  · show cleanedTranscript (String.intercalate " " ["Hello. World."]) = "Hello. World"
    decide

/-- C10 (confirmed): a mutation addressed to an id that matches no stored
note is a silent no-op on the collection: favorite toggle, confirmed delete,
and save in update mode (a selected note whose id is absent) all return the
collection unchanged. -/
theorem missing_id_mutations_noop (notes : List Note) (id : String) (sel : Note)
    (data : NoteFormData) (freshId : String) (now : Nat)
    (hmiss : ∀ n ∈ notes, n.id ≠ id) (hsel : sel.id = id) :
    handleToggleFavorite id notes = notes ∧
    handleDeleteNote true id notes = notes ∧
    handleSaveNote (some sel) data freshId now notes = notes := by
  refine ⟨?_, ?_, ?_⟩
  · unfold handleToggleFavorite
    apply list_map_eq_self
    intro n hn
    rw [if_neg (hmiss n hn)]
  · unfold handleDeleteNote
    rw [if_pos rfl, List.filter_eq_self]
    intro n hn
    exact bne_iff_ne.mpr (hmiss n hn)
  · unfold handleSaveNote
    apply list_map_eq_self
    intro n hn
    exact if_neg (fun hcontra => (hmiss n hn) (hcontra.trans hsel))

/-- C10 witness: one stored note with id "a"; the missing id is "b". -/
theorem missing_id_mutations_noop_check :
    ((∀ n ∈ ([{ id := "a", title := "t", content := "c", createdAt := 0, updatedAt := 0,
                favorite := false, tags := [] }] : List Note), n.id ≠ "b") ∧
     ({ id := "b", title := "u", content := "v", createdAt := 0, updatedAt := 0,
        favorite := false, tags := [] } : Note).id = "b") ∧
    (handleToggleFavorite "b"
        [{ id := "a", title := "t", content := "c", createdAt := 0, updatedAt := 0,
           favorite := false, tags := [] }]
      = [{ id := "a", title := "t", content := "c", createdAt := 0, updatedAt := 0,
           favorite := false, tags := [] }] ∧
     handleDeleteNote true "b"
        [{ id := "a", title := "t", content := "c", createdAt := 0, updatedAt := 0,
           favorite := false, tags := [] }]
      = [{ id := "a", title := "t", content := "c", createdAt := 0, updatedAt := 0,
           favorite := false, tags := [] }] ∧
     handleSaveNote
        (some { id := "b", title := "u", content := "v", createdAt := 0, updatedAt := 0,
                favorite := false, tags := [] })
        { title := "nt", content := "nc", tags := [] } "f" 1
        [{ id := "a", title := "t", content := "c", createdAt := 0, updatedAt := 0,
           favorite := false, tags := [] }]
      = [{ id := "a", title := "t", content := "c", createdAt := 0, updatedAt := 0,
           favorite := false, tags := [] }]) :=
  ⟨⟨by decide, rfl⟩,
   missing_id_mutations_noop
     [{ id := "a", title := "t", content := "c", createdAt := 0, updatedAt := 0,
        favorite := false, tags := [] }] "b"
     { id := "b", title := "u", content := "v", createdAt := 0, updatedAt := 0,
       favorite := false, tags := [] }
     { title := "nt", content := "nc", tags := [] } "f" 1 (by decide) rfl⟩
